import Mathlib

/-!
Shallow embedding of the property-loading orchestrator in
src/libtsuba/src/AddProperties.cpp of gliga/katana, together with the
spec-modelled collaborators it uses (PropStorageInfo state machine,
PropertyCache, ReadGroup resolution), and theorems checking the
specification's claims against it.

Conventions: machine integers are Nat with explicit reduction modulo 2^64
where the source uses uint64_t arithmetic; fallible C++ code returning
katana::Result is embedded as Except Error; code that may throw is embedded
with an explicit ReaderOutcome.throws constructor; in-place mutation of
caller-owned descriptors, the cache and the cache key is explicit state
passing over OrchState.
-/

/-- Owner kind of a property: per-node or per-edge column (tsuba::NodeEdge). -/
inductive NodeEdge where
  | kNode
  | kEdge
deriving DecidableEq

/-- Cache key: owner kind plus property name (tsuba::PropertyCacheKey). -/
structure PropertyCacheKey where
  node_edge : NodeEdge
  name : String
deriving DecidableEq

/-- Error codes used by this subsystem (tsuba::ErrorCode). `Exists` is the
code behind the spec's AlreadyExists, `ArrowError` the code behind the
spec's UnderlyingLibraryError; `Other` stands for any foreign error code. -/
inductive ErrorCode where
  | Exists
  | InvalidArgument
  | ArrowError
  | Other (n : Nat)
deriving DecidableEq

/-- A katana error: a code plus the stack of context messages wrapped around
it while propagating. -/
structure Error where
  code : ErrorCode
  context : List String
deriving DecidableEq

/-- ErrorInfo::WithContext: wrap one more context message around an error.
The code is preserved. -/
def Error.withContext (e : Error) (msg : String) : Error :=
  { e with context := msg :: e.context }

/-- One field of an arrow schema: a name and a data type (types are
abstracted to Nat identifiers). Named ArrowField because Field is taken by
the algebra library. -/
structure ArrowField where
  name : String
  fieldType : Nat
deriving DecidableEq, Inhabited

/-- A single arrow table, abstracted to its schema fields. -/
structure Table where
  fields : List ArrowField
deriving DecidableEq, Inhabited

/-- schema->field(0)->name() with the source's convention that the table has
at least one field when it is consulted. -/
def Table.fieldName0 (t : Table) : String :=
  (t.fields.headD default).name

/-- props->field(0)->type(): the data type of the first field. -/
def Table.fieldType0 (t : Table) : Nat :=
  (t.fields.headD default).fieldType

/-- Row-range request passed to the reader (tsuba::ParquetReader::Slice).
The source stores int64_t values; we record the 64-bit values the
orchestrator passes, as natural numbers. -/
structure Slice where
  offset : Nat
  length : Nat
deriving DecidableEq

/-- Outcome of invoking the underlying columnar reader on a path with
optional slice options: the library may throw an exception (with a message)
or return a Result. -/
inductive ReaderOutcome where
  | throws (msg : String)
  | returns (r : Except Error Table)

/-- Environment: the external columnar reader (ParquetReader::Make +
ReadTable folded into one call, since both failure sites receive the same
"loading property" context below). -/
abbrev ReadTableFn := Option Slice → String → ReaderOutcome

/-- States of the property life cycle (spec section 4.1). `Loading` is the
implicit in-flight state; the code never stores it. -/
inductive PropState where
  | Absent
  | Loading
  | Loaded
  | Modified
deriving DecidableEq

/-- Modelled from the spec: PropStorageInfo, the per-property descriptor
(name, on-disk relative path, life-cycle state, recorded data type); its
class lives outside src/ so the fields follow spec section 3. -/
structure PropStorageInfo where
  name : String
  path : String
  state : PropState
  dataType : Option Nat
deriving DecidableEq

instance : Inhabited PropStorageInfo :=
  ⟨{ name := "", path := "", state := PropState.Absent, dataType := none }⟩

/-- Modelled from the spec: PropStorageInfo::IsAbsent — true iff the state
is Absent. -/
def PropStorageInfo.IsAbsent (p : PropStorageInfo) : Bool :=
  p.state = PropState.Absent

/-- Modelled from the spec: PropStorageInfo::WasLoaded — sets the state to
Loaded and records the data type (spec section 4.1, MarkLoaded). -/
def PropStorageInfo.WasLoaded (p : PropStorageInfo) (t : Nat) : PropStorageInfo :=
  { p with state := PropState.Loaded, dataType := some t }

/-- Modelled from the spec: PropStorageInfo::WasModified — sets the state to
Modified and records the data type (spec section 4.1, MarkModified). -/
def PropStorageInfo.WasModified (p : PropStorageInfo) (t : Nat) : PropStorageInfo :=
  { p with state := PropState.Modified, dataType := some t }

/-- Modelled from the spec: the cache's keyed store, consumed through Get
and Insert only (spec section 6). -/
abbrev PropertyCache := List (PropertyCacheKey × Table)

/-- Modelled from the spec: PropertyCache::Get — keyed lookup returning the
column if present. -/
def PropertyCache.Get (c : PropertyCache) (k : PropertyCacheKey) : Option Table :=
  (c.find? (fun e => e.1 = k)).map (fun e => e.2)

/-- Modelled from the spec: PropertyCache::Insert — publish a column under a
key. -/
def PropertyCache.Insert (c : PropertyCache) (k : PropertyCacheKey) (t : Table) :
    PropertyCache :=
  (k, t) :: c

/-- DoLoadProperties (AddProperties.cpp lines 17-49): run the reader, add
"loading property" context to reader failures, then check the schema has
exactly one field whose name is the expected property name. Exceptions from
the reader propagate (they are caught by the callers below). -/
def DoLoadProperties (readTable : ReadTableFn) (expected_name : String)
    (file_path : String) (slice : Option Slice) : ReaderOutcome :=
  match readTable slice file_path with
  | ReaderOutcome.throws msg => ReaderOutcome.throws msg
  | ReaderOutcome.returns (Except.error e) =>
      ReaderOutcome.returns (Except.error (e.withContext "loading property"))
  | ReaderOutcome.returns (Except.ok out) =>
      match out.fields with
      | [f] =>
          if f.name ≠ expected_name then
            ReaderOutcome.returns (Except.error
              { code := ErrorCode.InvalidArgument
                context := ["expected " ++ expected_name ++ " found " ++ f.name ++ " instead"] })
          else
            ReaderOutcome.returns (Except.ok out)
      | fs =>
          ReaderOutcome.returns (Except.error
            { code := ErrorCode.InvalidArgument
              context := ["expected 1 field found " ++ toString fs.length ++ " instead"] })

/-- tsuba::LoadProperties (lines 53-62): full-column load; any exception
escaping the columnar library is caught and wrapped as an ArrowError
carrying the exception message. -/
def LoadProperties (readTable : ReadTableFn) (expected_name : String)
    (file_path : String) : Except Error Table :=
  match DoLoadProperties readTable expected_name file_path none with
  | ReaderOutcome.throws msg =>
      Except.error { code := ErrorCode.ArrowError
                     context := ["arrow exception: " ++ msg] }
  | ReaderOutcome.returns r => r

/-- tsuba::LoadPropertySlice (lines 64-76): sliced load with the same
exception wrapping. -/
def LoadPropertySlice (readTable : ReadTableFn) (expected_name : String)
    (file_path : String) (offset : Nat) (length : Nat) : Except Error Table :=
  match DoLoadProperties readTable expected_name file_path
      (some { offset := offset, length := length }) with
  | ReaderOutcome.throws msg =>
      Except.error { code := ErrorCode.ArrowError
                     context := ["arrow exception: " ++ msg] }
  | ReaderOutcome.returns r => r

/-- The mutable state an orchestrator call acts on: the caller-owned
descriptor batch (mutated in place through pointers in the source, hence by
index here), the caller-supplied cache key object, the optional cache, and
the record of columns successfully handed to the merge function, in call
order (the merged data). -/
structure OrchState where
  props : List PropStorageInfo
  cacheKey : PropertyCacheKey
  cache : Option PropertyCache
  merges : List Table
deriving DecidableEq

/-- Dereference the descriptor pointer at position i of the batch. -/
def OrchState.getProp (s : OrchState) (i : Nat) : PropStorageInfo :=
  s.props.getD i default

/-- Write through the descriptor pointer at position i of the batch. -/
def OrchState.setProp (s : OrchState) (i : Nat) (p : PropStorageInfo) : OrchState :=
  { s with props := s.props.set i p }

/-- The on_complete lambda of tsuba::AddProperties (lines 120-139): run the
merge function with context on failure; on success mark the descriptor
Loaded with the column's first field type and, when a cache exists, set the
shared cache key's name to this property and insert the column under it. -/
def onComplete (add_fn : Table → Except Error Unit) (i : Nat) (props : Table)
    (s : OrchState) : Except Error Unit × OrchState :=
  let prop := s.getProp i
  match add_fn props with
  | Except.error e => (Except.error (e.withContext ("adding " ++ prop.name)), s)
  | Except.ok _ =>
      let s1 : OrchState := { s with merges := s.merges ++ [props] }
      let s2 := s1.setProp i ((s1.getProp i).WasLoaded props.fieldType0)
      match s2.cache with
      | none => (Except.ok (), s2)
      | some c =>
          let key := { s2.cacheKey with name := prop.name }
          (Except.ok (), { s2 with cacheKey := key, cache := some (c.Insert key props) })

/-- The on_complete lambda of tsuba::AddPropertySlice (lines 183-198): run
the merge function with context on failure; on success mark the descriptor
Loaded, then immediately Modified, with the column's first field type; the
cache is never consulted. -/
def onCompleteSlice (add_fn : Table → Except Error Unit) (i : Nat) (props : Table)
    (s : OrchState) : Except Error Unit × OrchState :=
  let prop := s.getProp i
  match add_fn props with
  | Except.error e => (Except.error (e.withContext ("adding " ++ prop.name)), s)
  | Except.ok _ =>
      let s1 : OrchState := { s with merges := s.merges ++ [props] }
      (Except.ok (),
        s1.setProp i (((s1.getProp i).WasLoaded props.fieldType0).WasModified props.fieldType0))

instance {ε α : Type} [DecidableEq ε] [DecidableEq α] : DecidableEq (Except ε α) :=
  fun a b =>
    match a, b with
    | Except.ok x, Except.ok y =>
        if h : x = y then Decidable.isTrue (by rw [h])
        else Decidable.isFalse (by simp [h])
    | Except.error x, Except.error y =>
        if h : x = y then Decidable.isTrue (by rw [h])
        else Decidable.isFalse (by simp [h])
    | Except.ok _, Except.error _ => Decidable.isFalse (by simp)
    | Except.error _, Except.ok _ => Decidable.isFalse (by simp)

/-- One pending operation registered with a ReadGroup: the descriptor the
captured pointer refers to, the eagerly launched load's eventual result, and
the diagnostic label (the file path). -/
structure PendingOp where
  idx : Nat
  loadRes : Except Error Table
  label : String
deriving DecidableEq

/-- Body of the async lambda in tsuba::AddProperties (lines 112-119): the
load result with "error loading path" context on failure. -/
def fullFutureResult (readTable : ReadTableFn) (name path : String) :
    Except Error Table :=
  match LoadProperties readTable name path with
  | Except.error e => Except.error (e.withContext ("error loading " ++ path))
  | Except.ok t => Except.ok t

/-- Body of the async lambda in tsuba::AddPropertySlice (lines 170-182): the
sliced load result with "error loading path" context on failure. -/
def sliceFutureResult (readTable : ReadTableFn) (name path : String)
    (first size : Nat) : Except Error Table :=
  match LoadPropertySlice readTable name path first size with
  | Except.error e => Except.error (e.withContext ("error loading " ++ path))
  | Except.ok t => Except.ok t

/-- Outcome of one iteration of an orchestrator loop: either return from the
call now (stop) with a result, the state and the ops registered so far, or
go on to the next descriptor (next) after registering ops. -/
inductive StepRes where
  | stop (r : Except Error Unit) (s : OrchState) (ops : List PendingOp)
  | next (s : OrchState) (ops : List PendingOp)

/-- One iteration of the tsuba::AddProperties loop (lines 85-148) over the
descriptor at position i: fail with Exists when the descriptor is not
Absent; when a cache exists, overwrite the shared key's name and probe, a
hit merging synchronously, marking Loaded and returning success for the
whole call; otherwise launch the load and either register it with the group
(useGrp) or block on it and run on_complete. -/
def addPropStep (readTable : ReadTableFn) (add_fn : Table → Except Error Unit)
    (uri : String) (useGrp : Bool) (i : Nat) (s : OrchState) : StepRes :=
  let prop := s.getProp i
  if prop.IsAbsent = false then
    StepRes.stop
      (Except.error { code := ErrorCode.Exists
                      context := ["property " ++ prop.name ++ " must be absent to be added"] })
      s []
  else
    let probe : OrchState × Option Table :=
      match s.cache with
      | none => (s, none)
      | some c =>
          let key := { s.cacheKey with name := prop.name }
          ({ s with cacheKey := key }, c.Get key)
    match probe with
    | (s0, some column_table) =>
        match add_fn column_table with
        | Except.error e =>
            StepRes.stop (Except.error (e.withContext ("adding " ++ prop.name))) s0 []
        | Except.ok _ =>
            let s1 : OrchState := { s0 with merges := s0.merges ++ [column_table] }
            StepRes.stop (Except.ok ())
              (s1.setProp i ((s1.getProp i).WasLoaded column_table.fieldType0)) []
    | (s0, none) =>
        let path := uri ++ "/" ++ prop.path
        let res := fullFutureResult readTable prop.name path
        if useGrp then
          StepRes.next s0 [{ idx := i, loadRes := res, label := path }]
        else
          match res with
          | Except.error e => StepRes.stop (Except.error e) s0 []
          | Except.ok t =>
              match onComplete add_fn i t s0 with
              | (Except.error e, s1) => StepRes.stop (Except.error e) s1 []
              | (Except.ok _, s1) => StepRes.next s1 []

/-- One iteration of the tsuba::AddPropertySlice loop (lines 162-212) over
the descriptor at position i, with precomputed slice offset and size: fail
with Exists when the descriptor is not Absent; otherwise launch the sliced
load and either register it with the group (useGrp) or block on it and run
on_complete. No cache is involved. -/
def addSliceStep (readTable : ReadTableFn) (add_fn : Table → Except Error Unit)
    (dir : String) (first size : Nat) (useGrp : Bool) (i : Nat) (s : OrchState) :
    StepRes :=
  let prop := s.getProp i
  if prop.IsAbsent = false then
    StepRes.stop
      (Except.error { code := ErrorCode.Exists
                      context := ["property " ++ prop.name ++ " must be absent to be added"] })
      s []
  else
    let path := dir ++ "/" ++ prop.path
    let res := sliceFutureResult readTable prop.name path first size
    if useGrp then
      StepRes.next s [{ idx := i, loadRes := res, label := path }]
    else
      match res with
      | Except.error e => StepRes.stop (Except.error e) s []
      | Except.ok t =>
          match onCompleteSlice add_fn i t s with
          | (Except.error e, s1) => StepRes.stop (Except.error e) s1 []
          | (Except.ok _, s1) => StepRes.next s1 []

/-- Drive an orchestrator loop from descriptor index i with the given fuel
(number of remaining descriptors): apply the step, stop on stop, recurse on
next, accumulating registered operations in submission order. -/
def runLoop (step : Nat → OrchState → StepRes) :
    Nat → Nat → OrchState → Except Error Unit × OrchState × List PendingOp
  | 0, _, s => (Except.ok (), s, [])
  | fuel + 1, i, s =>
      match step i s with
      | StepRes.stop r s1 ops => (r, s1, ops)
      | StepRes.next s1 ops =>
          match runLoop step fuel (i + 1) s1 with
          | (r, s2, ops2) => (r, s2, ops ++ ops2)

/-- tsuba::AddProperties (lines 78-151): run the full-column loop over the
whole batch. Returns the call's aggregate result, the final state, and the
operations registered with the group (empty when useGrp is false). -/
def AddProperties (readTable : ReadTableFn) (add_fn : Table → Except Error Unit)
    (uri : String) (useGrp : Bool) (s : OrchState) :
    Except Error Unit × OrchState × List PendingOp :=
  runLoop (addPropStep readTable add_fn uri useGrp) s.props.length 0 s

/-- 2^64, the modulus of uint64_t arithmetic. -/
def UINT64_MOD : Nat := 2 ^ 64

/-- uint64_t subtraction a - b as the source computes range.second -
range.first: unsigned 64-bit arithmetic, wrapping modulo 2^64. -/
def usub64 (a b : Nat) : Nat :=
  (UINT64_MOD + a % UINT64_MOD - b % UINT64_MOD) % UINT64_MOD

/-- tsuba::AddPropertySlice (lines 153-215): compute begin = range.first and
size = range.second - range.first in uint64_t arithmetic, then run the
sliced loop over the whole batch. -/
def AddPropertySlice (readTable : ReadTableFn) (add_fn : Table → Except Error Unit)
    (dir : String) (range : Nat × Nat) (useGrp : Bool) (s : OrchState) :
    Except Error Unit × OrchState × List PendingOp :=
  runLoop (addSliceStep readTable add_fn dir (range.1 % UINT64_MOD) (usub64 range.2 range.1) useGrp)
    s.props.length 0 s

/-- Modelled from the spec: ReadGroup resolution (spec section 4.5), whose
class lives outside src/ — for every registered operation in submission
order, await the computation; on success invoke its completion callback and
record a callback failure; on computation failure skip the callback and
record the error tagged with the diagnostic label. Every failure is
collected, never only the first. -/
def ResolveGroup (complete : Nat → Table → OrchState → Except Error Unit × OrchState) :
    List PendingOp → OrchState → OrchState × List Error
  | [], s => (s, [])
  | op :: rest, s =>
      match op.loadRes with
      | Except.error e =>
          match ResolveGroup complete rest s with
          | (s1, errs) => (s1, e.withContext op.label :: errs)
      | Except.ok t =>
          match complete op.idx t s with
          | (Except.ok _, s1) => ResolveGroup complete rest s1
          | (Except.error e, s1) =>
              match ResolveGroup complete rest s1 with
              | (s2, errs) => (s2, e :: errs)

/-! ### List helper lemmas for descriptor batches -/

theorem list_set_of_length_le {α : Type} (l : List α) (i : Nat) (a : α)
    (h : l.length ≤ i) : l.set i a = l := by
  induction l generalizing i with
  | nil => rfl
  | cons x xs ih =>
      cases i with
      | zero => simp at h
      | succ j => simp [List.set, ih j (by simpa using h)]

theorem list_getD_set_ne {α : Type} (l : List α) (i j : Nat) (a d : α)
    (h : i ≠ j) : (l.set i a).getD j d = l.getD j d := by
  induction l generalizing i j with
  | nil => rfl
  | cons x xs ih =>
      cases i with
      | zero =>
          cases j with
          | zero => exact absurd rfl h
          | succ j => simp [List.set, List.getD]
      | succ i =>
          cases j with
          | zero => simp [List.set, List.getD]
          | succ j =>
              simp only [List.set, List.getD_cons_succ]
              exact ih i j (fun hh => h (by rw [hh]))

theorem list_getD_set_self {α : Type} (l : List α) (i : Nat) (a d : α)
    (h : i < l.length) : (l.set i a).getD i d = a := by
  induction l generalizing i with
  | nil => simp at h
  | cons x xs ih =>
      cases i with
      | zero => rfl
      | succ i => simpa [List.set, List.getD] using ih i (by simpa using h)

theorem getProp_setProp_ne (s : OrchState) (i j : Nat) (p : PropStorageInfo)
    (h : i ≠ j) : (s.setProp i p).getProp j = s.getProp j :=
  list_getD_set_ne s.props i j p default h

theorem getProp_setProp_self (s : OrchState) (i : Nat) (p : PropStorageInfo)
    (h : i < s.props.length) : (s.setProp i p).getProp i = p :=
  list_getD_set_self s.props i p default h

/-! ### Shared concrete test fixtures -/

/-- A cache key as a caller would initialize it. -/
def exKey : PropertyCacheKey := { node_edge := NodeEdge.kNode, name := "" }

/-- A merge function that always succeeds. -/
def exAdd : Table → Except Error Unit := fun _ => Except.ok ()

/-- A single-field table named col. -/
def exTable : Table := { fields := [{ name := "col", fieldType := 7 }] }

/-- A reader that always returns exTable. -/
def exEnv : ReadTableFn := fun _ _ => ReaderOutcome.returns (Except.ok exTable)

/-- A reader in which the columnar library always throws. -/
def exEnvThrow : ReadTableFn := fun _ _ => ReaderOutcome.throws "boom"

/-- An Absent descriptor named col stored at relative path pcol. -/
def exProp : PropStorageInfo :=
  { name := "col", path := "pcol", state := PropState.Absent, dataType := none }

/-! ### Claim C2 -/

/-- Claim C2: for every descriptor whose state is not Absent, the iteration
of AddProperties and of AddPropertySlice that processes it fails with the
Exists (AlreadyExists) error and returns the state unchanged, so the
descriptor's state and dataType are untouched. -/
theorem claim_C2_nonAbsent_fails (readTable : ReadTableFn)
    (add_fn : Table → Except Error Unit) (uri dir : String) (first size : Nat)
    (useGrp : Bool) (fuel i : Nat) (s : OrchState)
    (h : (s.getProp i).IsAbsent = false) :
    runLoop (addPropStep readTable add_fn uri useGrp) (fuel + 1) i s =
      (Except.error { code := ErrorCode.Exists
                      context := ["property " ++ (s.getProp i).name ++ " must be absent to be added"] },
       s, []) ∧
    runLoop (addSliceStep readTable add_fn dir first size useGrp) (fuel + 1) i s =
      (Except.error { code := ErrorCode.Exists
                      context := ["property " ++ (s.getProp i).name ++ " must be absent to be added"] },
       s, []) := by
  constructor <;> simp [runLoop, addPropStep, addSliceStep, h]

/-- A descriptor already Loaded, hence not Absent. -/
def w2Prop : PropStorageInfo :=
  { name := "n", path := "pn", state := PropState.Loaded, dataType := some 1 }

/-- A one-descriptor batch whose descriptor is not Absent. -/
def w2State : OrchState :=
  { props := [w2Prop], cacheKey := exKey, cache := none, merges := [] }

theorem claim_C2_witness :
    (w2State.getProp 0).IsAbsent = false ∧
    (runLoop (addPropStep exEnv exAdd "u" false) (0 + 1) 0 w2State =
      (Except.error { code := ErrorCode.Exists
                      context := ["property " ++ (w2State.getProp 0).name ++ " must be absent to be added"] },
       w2State, []) ∧
     runLoop (addSliceStep exEnv exAdd "d" 0 0 false) (0 + 1) 0 w2State =
      (Except.error { code := ErrorCode.Exists
                      context := ["property " ++ (w2State.getProp 0).name ++ " must be absent to be added"] },
       w2State, [])) :=
  ⟨by decide, claim_C2_nonAbsent_fails exEnv exAdd "u" "d" 0 0 false 0 0 w2State (by decide)⟩

/-! ### Claim C8 -/

/-- Claim C8: whenever the underlying columnar library throws, LoadProperties
and LoadPropertySlice do not propagate the exception but return an error of
code ArrowError (the spec's UnderlyingLibraryError) carrying the exception's
message. -/
theorem claim_C8_exception_wrapped (readTable : ReadTableFn)
    (name path msg : String) (off len : Nat) :
    (readTable none path = ReaderOutcome.throws msg →
      LoadProperties readTable name path =
        Except.error { code := ErrorCode.ArrowError
                       context := ["arrow exception: " ++ msg] }) ∧
    (readTable (some { offset := off, length := len }) path = ReaderOutcome.throws msg →
      LoadPropertySlice readTable name path off len =
        Except.error { code := ErrorCode.ArrowError
                       context := ["arrow exception: " ++ msg] }) := by
  constructor <;> intro h <;>
    simp [LoadProperties, LoadPropertySlice, DoLoadProperties, h]

theorem claim_C8_witness :
    exEnvThrow none "p" = ReaderOutcome.throws "boom" ∧
    LoadProperties exEnvThrow "n" "p" =
      Except.error { code := ErrorCode.ArrowError
                     context := ["arrow exception: " ++ "boom"] } ∧
    LoadPropertySlice exEnvThrow "n" "p" 1 2 =
      Except.error { code := ErrorCode.ArrowError
                     context := ["arrow exception: " ++ "boom"] } :=
  ⟨rfl, (claim_C8_exception_wrapped exEnvThrow "n" "p" "boom" 1 2).1 rfl,
    (claim_C8_exception_wrapped exEnvThrow "n" "p" "boom" 1 2).2 rfl⟩

/-! ### Claim C10 -/

/-- Claim C10: AddPropertySlice reads its range pair as the half-open
interval from range.first to range.second: the loader is invoked with offset
range.first and length range.second - range.first computed in unsigned
64-bit arithmetic (usub64), so for range.second < range.first the length
wraps modulo 2^64, and the call still proceeds (registers the load and
returns success) rather than failing. -/
theorem claim_C10_slice_arithmetic (readTable : ReadTableFn)
    (add_fn : Table → Except Error Unit) (dir : String) (r1 r2 : Nat)
    (s : OrchState) (p : PropStorageInfo)
    (hp : s.props = [p]) (hst : p.state = PropState.Absent)
    (h1 : r1 < UINT64_MOD) (h2 : r2 < UINT64_MOD) :
    (r1 ≤ r2 → usub64 r2 r1 = r2 - r1) ∧
    (r2 < r1 → usub64 r2 r1 = r2 + (UINT64_MOD - r1)) ∧
    AddPropertySlice readTable add_fn dir (r1, r2) true s =
      (Except.ok (), s,
       [{ idx := 0
          loadRes := sliceFutureResult readTable p.name (dir ++ "/" ++ p.path) r1 (usub64 r2 r1)
          label := dir ++ "/" ++ p.path }]) := by
  refine ⟨?_, ?_, ?_⟩
  · intro hle
    have hm1 : r1 % UINT64_MOD = r1 := Nat.mod_eq_of_lt h1
    have hm2 : r2 % UINT64_MOD = r2 := Nat.mod_eq_of_lt h2
    have hlt : r2 - r1 < UINT64_MOD := lt_of_le_of_lt (Nat.sub_le _ _) h2
    have : UINT64_MOD + r2 - r1 = UINT64_MOD + (r2 - r1) := by omega
    simp [usub64, hm1, hm2, this, Nat.add_mod_left, Nat.mod_eq_of_lt hlt]
  · intro hlt
    have hm1 : r1 % UINT64_MOD = r1 := Nat.mod_eq_of_lt h1
    have hm2 : r2 % UINT64_MOD = r2 := Nat.mod_eq_of_lt h2
    have he : UINT64_MOD + r2 - r1 = r2 + (UINT64_MOD - r1) := by omega
    have hsmall : r2 + (UINT64_MOD - r1) < UINT64_MOD := by omega
    simp [usub64, hm1, hm2, he, Nat.mod_eq_of_lt hsmall]
  · have hm1 : r1 % UINT64_MOD = r1 := Nat.mod_eq_of_lt h1
    have hname : (s.getProp 0) = p := by simp [OrchState.getProp, hp, List.getD]
    simp [AddPropertySlice, hp, runLoop, addSliceStep, hname, hm1,
      PropStorageInfo.IsAbsent, hst]

/-- A one-descriptor Absent batch for the slice arithmetic witness. -/
def w10State : OrchState :=
  { props := [exProp], cacheKey := exKey, cache := none, merges := [] }

theorem claim_C10_witness :
    w10State.props = [exProp] ∧ exProp.state = PropState.Absent ∧
    5 < UINT64_MOD ∧ 3 < UINT64_MOD ∧
    ((5 ≤ 3 → usub64 3 5 = 3 - 5) ∧
     (3 < 5 → usub64 3 5 = 3 + (UINT64_MOD - 5)) ∧
     AddPropertySlice exEnv exAdd "d" (5, 3) true w10State =
       (Except.ok (), w10State,
        [{ idx := 0
           loadRes := sliceFutureResult exEnv exProp.name ("d" ++ "/" ++ exProp.path) 5 (usub64 3 5)
           label := "d" ++ "/" ++ exProp.path }])) :=
  ⟨rfl, rfl, by norm_num [UINT64_MOD], by norm_num [UINT64_MOD],
    claim_C10_slice_arithmetic exEnv exAdd "d" 5 3 w10State exProp rfl rfl
      (by norm_num [UINT64_MOD]) (by norm_num [UINT64_MOD])⟩

/-! ### Frame lemmas about the completion routines and the loops -/

/-- The state a step leaves behind (the stop and next cases alike). -/
def StepRes.state : StepRes → OrchState
  | StepRes.stop _ s _ => s
  | StepRes.next s _ => s

theorem onComplete_cache_none (add_fn : Table → Except Error Unit) (i : Nat)
    (t : Table) (s : OrchState) (hc : s.cache = none) :
    ((onComplete add_fn i t s).2).cache = none := by
  cases hadd : add_fn t <;> simp [onComplete, hadd, OrchState.setProp, hc]


theorem list_getD_getElem_set_ne {α : Type} (l : List α) (i j : Nat) (a d : α)
    (h : i ≠ j) : (l.set i a)[j]?.getD d = l[j]?.getD d := by
  rw [List.getElem?_set_ne h]

theorem list_getD_getElem_set_self {α : Type} (l : List α) (i : Nat) (a d : α)
    (h : i < l.length) : (l.set i a)[i]?.getD d = a := by
  rw [List.getElem?_set_eq_of_lt a h]
  rfl

theorem onComplete_getProp_ne (add_fn : Table → Except Error Unit) (i j : Nat)
    (t : Table) (s : OrchState) (hj : j ≠ i) :
    ((onComplete add_fn i t s).2).getProp j = s.getProp j := by
  cases hadd : add_fn t with
  | error e => simp [onComplete, hadd]
  | ok u =>
      cases hc : s.cache <;>
        · simp only [onComplete, hadd, hc, OrchState.getProp, OrchState.setProp]
          simp
          exact list_getD_getElem_set_ne _ _ _ _ _ (Ne.symm hj)

theorem onComplete_length (add_fn : Table → Except Error Unit) (i : Nat)
    (t : Table) (s : OrchState) :
    ((onComplete add_fn i t s).2).props.length = s.props.length := by
  cases hadd : add_fn t with
  | error e => simp [onComplete, hadd]
  | ok u => cases hc : s.cache <;> simp [onComplete, hadd, hc, OrchState.setProp]

theorem onComplete_name (add_fn : Table → Except Error Unit) (i j : Nat)
    (t : Table) (s : OrchState) :
    (((onComplete add_fn i t s).2).getProp j).name = (s.getProp j).name := by
  by_cases hj : j = i
  · subst hj
    cases hadd : add_fn t with
    | error e => simp [onComplete, hadd]
    | ok u =>
        by_cases hi : j < s.props.length
        · cases hc : s.cache <;>
            · simp only [onComplete, hadd, hc, OrchState.getProp, OrchState.setProp]
              simp
              rw [list_getD_getElem_set_self _ _ _ _ hi]
              rfl
        · cases hc : s.cache <;>
            · simp only [onComplete, hadd, hc, OrchState.getProp, OrchState.setProp]
              simp
              rw [list_set_of_length_le _ _ _ (by omega)]
  · rw [onComplete_getProp_ne add_fn i j t s hj]

theorem onCompleteSlice_getProp_ne (add_fn : Table → Except Error Unit) (i j : Nat)
    (t : Table) (s : OrchState) (hj : j ≠ i) :
    ((onCompleteSlice add_fn i t s).2).getProp j = s.getProp j := by
  cases hadd : add_fn t with
  | error e => simp [onCompleteSlice, hadd]
  | ok u =>
      simp only [onCompleteSlice, hadd, OrchState.getProp, OrchState.setProp]
      simp
      exact list_getD_getElem_set_ne _ _ _ _ _ (Ne.symm hj)

theorem onCompleteSlice_cache (add_fn : Table → Except Error Unit) (i : Nat)
    (t : Table) (s : OrchState) :
    ((onCompleteSlice add_fn i t s).2).cache = s.cache := by
  cases hadd : add_fn t <;> simp [onCompleteSlice, hadd, OrchState.setProp]

theorem onCompleteSlice_cacheKey (add_fn : Table → Except Error Unit) (i : Nat)
    (t : Table) (s : OrchState) :
    ((onCompleteSlice add_fn i t s).2).cacheKey = s.cacheKey := by
  cases hadd : add_fn t <;> simp [onCompleteSlice, hadd, OrchState.setProp]

theorem onCompleteSlice_length (add_fn : Table → Except Error Unit) (i : Nat)
    (t : Table) (s : OrchState) :
    ((onCompleteSlice add_fn i t s).2).props.length = s.props.length := by
  cases hadd : add_fn t <;> simp [onCompleteSlice, hadd, OrchState.setProp]

theorem addSliceStep_cache (readTable : ReadTableFn) (add_fn : Table → Except Error Unit)
    (dir : String) (first size : Nat) (useGrp : Bool) (i : Nat) (s : OrchState) :
    ((addSliceStep readTable add_fn dir first size useGrp i s).state).cache = s.cache := by
  by_cases h : (s.getProp i).IsAbsent = false
  · simp [addSliceStep, h, StepRes.state]
  · rcases hres : sliceFutureResult readTable (s.getProp i).name
        (dir ++ "/" ++ (s.getProp i).path) first size with e | t
    · cases useGrp <;> simp [addSliceStep, h, hres, StepRes.state]
    · cases useGrp with
      | true => simp [addSliceStep, h, hres, StepRes.state]
      | false =>
          cases hadd : add_fn t <;>
            simp [addSliceStep, h, hres, onCompleteSlice, hadd, StepRes.state,
              OrchState.setProp]

theorem addSliceStep_cacheKey (readTable : ReadTableFn) (add_fn : Table → Except Error Unit)
    (dir : String) (first size : Nat) (useGrp : Bool) (i : Nat) (s : OrchState) :
    ((addSliceStep readTable add_fn dir first size useGrp i s).state).cacheKey = s.cacheKey := by
  by_cases h : (s.getProp i).IsAbsent = false
  · simp [addSliceStep, h, StepRes.state]
  · rcases hres : sliceFutureResult readTable (s.getProp i).name
        (dir ++ "/" ++ (s.getProp i).path) first size with e | t
    · cases useGrp <;> simp [addSliceStep, h, hres, StepRes.state]
    · cases useGrp with
      | true => simp [addSliceStep, h, hres, StepRes.state]
      | false =>
          cases hadd : add_fn t <;>
            simp [addSliceStep, h, hres, onCompleteSlice, hadd, StepRes.state,
              OrchState.setProp]

theorem addSliceStep_length (readTable : ReadTableFn) (add_fn : Table → Except Error Unit)
    (dir : String) (first size : Nat) (useGrp : Bool) (i : Nat) (s : OrchState) :
    ((addSliceStep readTable add_fn dir first size useGrp i s).state).props.length = s.props.length := by
  by_cases h : (s.getProp i).IsAbsent = false
  · simp [addSliceStep, h, StepRes.state]
  · rcases hres : sliceFutureResult readTable (s.getProp i).name
        (dir ++ "/" ++ (s.getProp i).path) first size with e | t
    · cases useGrp <;> simp [addSliceStep, h, hres, StepRes.state]
    · cases useGrp with
      | true => simp [addSliceStep, h, hres, StepRes.state]
      | false =>
          cases hadd : add_fn t <;>
            simp [addSliceStep, h, hres, onCompleteSlice, hadd, StepRes.state,
              OrchState.setProp]

theorem addSliceStep_getProp_ne (readTable : ReadTableFn) (add_fn : Table → Except Error Unit)
    (dir : String) (first size : Nat) (useGrp : Bool) (i j : Nat) (s : OrchState)
    (hj : j ≠ i) :
    ((addSliceStep readTable add_fn dir first size useGrp i s).state).getProp j = s.getProp j := by
  by_cases h : (s.getProp i).IsAbsent = false
  · simp [addSliceStep, h, StepRes.state]
  · rcases hres : sliceFutureResult readTable (s.getProp i).name
        (dir ++ "/" ++ (s.getProp i).path) first size with e | t
    · cases useGrp <;> simp [addSliceStep, h, hres, StepRes.state]
    · cases useGrp with
      | true => simp [addSliceStep, h, hres, StepRes.state]
      | false =>
          have hg := onCompleteSlice_getProp_ne add_fn i j t s hj
          cases hadd : add_fn t with
          | error e => simp [addSliceStep, h, hres, onCompleteSlice, hadd, StepRes.state]
          | ok u =>
              rw [onCompleteSlice] at hg
              simp only [hadd] at hg
              simp [addSliceStep, h, hres, onCompleteSlice, hadd, StepRes.state]
              simpa using hg

theorem runLoop_field_const {β : Type} (f : OrchState → β)
    (step : Nat → OrchState → StepRes)
    (hstep : ∀ i s, f ((step i s).state) = f s) :
    ∀ fuel i s, f ((runLoop step fuel i s).2.1) = f s := by
  intro fuel
  induction fuel with
  | zero => intro i s; simp [runLoop]
  | succ k ih =>
      intro i s
      have hs0 := hstep i s
      cases hs : step i s with
      | stop r s1 ops =>
          rw [hs] at hs0
          simpa [runLoop, hs, StepRes.state] using hs0
      | next s1 ops =>
          rw [hs] at hs0
          simp only [StepRes.state] at hs0
          rcases hrl : runLoop step k (i + 1) s1 with ⟨r2, s2, ops2⟩
          have := ih (i + 1) s1
          rw [hrl] at this
          simp only [runLoop, hs, hrl]
          exact this.trans hs0

theorem runLoop_getProp_lt (step : Nat → OrchState → StepRes)
    (hstep : ∀ i s j, j ≠ i → ((step i s).state).getProp j = s.getProp j) :
    ∀ fuel i s j, j < i → ((runLoop step fuel i s).2.1).getProp j = s.getProp j := by
  intro fuel
  induction fuel with
  | zero => intro i s j _; simp [runLoop]
  | succ k ih =>
      intro i s j hj
      have hs0 := hstep i s j (Nat.ne_of_lt hj)
      cases hs : step i s with
      | stop r s1 ops =>
          rw [hs] at hs0
          simpa [runLoop, hs, StepRes.state] using hs0
      | next s1 ops =>
          rw [hs] at hs0
          simp only [StepRes.state] at hs0
          rcases hrl : runLoop step k (i + 1) s1 with ⟨r2, s2, ops2⟩
          have := ih (i + 1) s1 j (by omega)
          rw [hrl] at this
          simp only [runLoop, hs, hrl]
          exact this.trans hs0

theorem resolveSlice_frame (add_fn : Table → Except Error Unit) :
    ∀ ops s, ((ResolveGroup (onCompleteSlice add_fn) ops s).1).cache = s.cache ∧
      ((ResolveGroup (onCompleteSlice add_fn) ops s).1).cacheKey = s.cacheKey := by
  intro ops
  induction ops with
  | nil => intro s; simp [ResolveGroup]
  | cons op rest ih =>
      intro s
      rcases hop : op.loadRes with e | t2
      · rcases hrl : ResolveGroup (onCompleteSlice add_fn) rest s with ⟨s1, errs⟩
        have h0 := ih s
        rw [hrl] at h0
        simpa [ResolveGroup, hop, hrl] using h0
      · have hc := onCompleteSlice_cache add_fn op.idx t2 s
        have hk := onCompleteSlice_cacheKey add_fn op.idx t2 s
        rcases hoc : onCompleteSlice add_fn op.idx t2 s with ⟨r, s1⟩
        rw [hoc] at hc hk
        simp only [] at hc hk
        cases r with
        | ok u =>
            have h0 := ih s1
            simp only [ResolveGroup, hop, hoc]
            exact ⟨h0.1.trans hc, h0.2.trans hk⟩
        | error e =>
            rcases hrl : ResolveGroup (onCompleteSlice add_fn) rest s1 with ⟨s2, errs⟩
            have h0 := ih s1
            rw [hrl] at h0
            simp only [ResolveGroup, hop, hoc, hrl]
            exact ⟨h0.1.trans hc, h0.2.trans hk⟩

/-! ### Claim C4 -/

/-- Claim C4: on a successful full-column load and merge, the completion
routine of AddProperties returns success, appends the column to the merged
data, marks the descriptor Loaded with the loaded column's first field type
as its recorded dataType, leaves the cache empty when none was supplied, and
when a cache exists inserts the column under the descriptor's identity (the
shared key with this property's name). -/
theorem claim_C4_completion_success (add_fn : Table → Except Error Unit)
    (i : Nat) (t : Table) (s : OrchState)
    (hi : i < s.props.length) (hok : add_fn t = Except.ok ()) :
    (onComplete add_fn i t s).1 = Except.ok () ∧
    ((onComplete add_fn i t s).2).merges = s.merges ++ [t] ∧
    ((onComplete add_fn i t s).2).getProp i = (s.getProp i).WasLoaded t.fieldType0 ∧
    (((onComplete add_fn i t s).2).getProp i).state = PropState.Loaded ∧
    (((onComplete add_fn i t s).2).getProp i).dataType = some t.fieldType0 ∧
    (s.cache = none → ((onComplete add_fn i t s).2).cache = none) ∧
    (∀ c, s.cache = some c →
      ((onComplete add_fn i t s).2).cache =
        some (c.Insert { s.cacheKey with name := (s.getProp i).name } t)) := by
  have hget : ((onComplete add_fn i t s).2).getProp i = (s.getProp i).WasLoaded t.fieldType0 := by
    cases hc : s.cache <;>
      · simp only [onComplete, hok, hc, OrchState.getProp, OrchState.setProp]
        simp
        rw [list_getD_getElem_set_self _ _ _ _ hi]
  refine ⟨?_, ?_, hget, by rw [hget]; rfl, by rw [hget]; rfl, ?_, ?_⟩
  · cases hc : s.cache <;> simp [onComplete, hok, hc, OrchState.setProp, OrchState.getProp]
  · cases hc : s.cache <;> simp [onComplete, hok, hc, OrchState.setProp, OrchState.getProp]
  · intro hc
    simp [onComplete, hok, hc, OrchState.setProp, OrchState.getProp]
  · intro c hc
    simp [onComplete, hok, hc, OrchState.setProp, OrchState.getProp]

/-- A one-descriptor Absent batch with no cache. -/
def w4State : OrchState :=
  { props := [exProp], cacheKey := exKey, cache := none, merges := [] }

theorem claim_C4_witness :
    0 < w4State.props.length ∧ exAdd exTable = Except.ok () ∧
    ((onComplete exAdd 0 exTable w4State).1 = Except.ok () ∧
     ((onComplete exAdd 0 exTable w4State).2).merges = w4State.merges ++ [exTable] ∧
     ((onComplete exAdd 0 exTable w4State).2).getProp 0 =
       (w4State.getProp 0).WasLoaded exTable.fieldType0 ∧
     (((onComplete exAdd 0 exTable w4State).2).getProp 0).state = PropState.Loaded ∧
     (((onComplete exAdd 0 exTable w4State).2).getProp 0).dataType = some exTable.fieldType0 ∧
     (w4State.cache = none → ((onComplete exAdd 0 exTable w4State).2).cache = none) ∧
     (∀ c, w4State.cache = some c →
       ((onComplete exAdd 0 exTable w4State).2).cache =
         some (c.Insert { w4State.cacheKey with name := (w4State.getProp 0).name } exTable))) :=
  ⟨by decide, rfl, claim_C4_completion_success exAdd 0 exTable w4State (by decide) rfl⟩

/-! ### Claim C6 -/

/-- Claim C6: with a cache supplied, the first descriptor whose identity
hits the cache is merged synchronously, marked Loaded with the cached
column's first field type, and the call returns success right there: the
returned state differs from the input only at that descriptor, the shared
key's name, and the merged data, no operation is registered, and no
remaining descriptor is processed regardless of how many remain (fuel). -/
theorem claim_C6_cache_hit_early_return (readTable : ReadTableFn)
    (add_fn : Table → Except Error Unit) (uri : String) (useGrp : Bool)
    (fuel i : Nat) (s : OrchState) (c : PropertyCache) (t : Table)
    (habs : (s.getProp i).IsAbsent = true)
    (hc : s.cache = some c)
    (hhit : c.Get { s.cacheKey with name := (s.getProp i).name } = some t)
    (hok : add_fn t = Except.ok ()) :
    runLoop (addPropStep readTable add_fn uri useGrp) (fuel + 1) i s =
      (Except.ok (),
       { props := s.props.set i ((s.getProp i).WasLoaded t.fieldType0)
         cacheKey := { s.cacheKey with name := (s.getProp i).name }
         cache := some c
         merges := s.merges ++ [t] },
       []) := by
  simp only [OrchState.getProp, List.getD_eq_getElem?_getD] at habs hhit
  simp [runLoop, addPropStep, habs, hc, hhit, hok, OrchState.setProp, OrchState.getProp]

/-- A one-descriptor Absent batch whose cache already holds the column under
the descriptor's identity. -/
def w6State : OrchState :=
  { props := [exProp], cacheKey := exKey
    cache := some [({ node_edge := NodeEdge.kNode, name := "col" }, exTable)]
    merges := [] }

theorem claim_C6_witness :
    (w6State.getProp 0).IsAbsent = true ∧
    w6State.cache = some [({ node_edge := NodeEdge.kNode, name := "col" }, exTable)] ∧
    PropertyCache.Get [({ node_edge := NodeEdge.kNode, name := "col" }, exTable)]
      { w6State.cacheKey with name := (w6State.getProp 0).name } = some exTable ∧
    exAdd exTable = Except.ok () ∧
    runLoop (addPropStep exEnv exAdd "u" false) (2 + 1) 0 w6State =
      (Except.ok (),
       { props := w6State.props.set 0 ((w6State.getProp 0).WasLoaded exTable.fieldType0)
         cacheKey := { w6State.cacheKey with name := (w6State.getProp 0).name }
         cache := some [({ node_edge := NodeEdge.kNode, name := "col" }, exTable)]
         merges := w6State.merges ++ [exTable] },
       []) :=
  ⟨by decide, rfl, by decide, rfl,
    claim_C6_cache_hit_early_return exEnv exAdd "u" false 2 0 w6State
      [({ node_edge := NodeEdge.kNode, name := "col" }, exTable)] exTable
      (by decide) rfl (by decide) rfl⟩

/-! ### Claim C3 -/

/-- Claim C3: a descriptor whose sliced load and merge succeed ends in state
Modified (WasLoaded immediately followed by WasModified), on the synchronous
loop and in the grouped completion routine alike, regardless of slice
position (first and size are arbitrary); and the slice loop and slice group
resolution never touch the cache or the shared cache key. -/
theorem claim_C3_slice_modified_no_cache (readTable : ReadTableFn)
    (add_fn : Table → Except Error Unit) (dir : String) (first size : Nat)
    (fuel i : Nat) (s : OrchState) (t : Table)
    (hi : i < s.props.length)
    (habs : (s.getProp i).IsAbsent = true)
    (hload : sliceFutureResult readTable (s.getProp i).name
        (dir ++ "/" ++ (s.getProp i).path) first size = Except.ok t)
    (hok : add_fn t = Except.ok ()) :
    ((runLoop (addSliceStep readTable add_fn dir first size false) (fuel + 1) i s).2.1).getProp i =
      ((s.getProp i).WasLoaded t.fieldType0).WasModified t.fieldType0 ∧
    ((((runLoop (addSliceStep readTable add_fn dir first size false) (fuel + 1) i s).2.1).getProp i).state =
      PropState.Modified) ∧
    (∀ s2 i2, i2 < s2.props.length →
      (((onCompleteSlice add_fn i2 t s2).2).getProp i2).state = PropState.Modified) ∧
    (∀ useGrp2 fuel2 i2 s2,
      ((runLoop (addSliceStep readTable add_fn dir first size useGrp2) fuel2 i2 s2).2.1).cache = s2.cache ∧
      ((runLoop (addSliceStep readTable add_fn dir first size useGrp2) fuel2 i2 s2).2.1).cacheKey = s2.cacheKey) ∧
    (∀ ops s2, ((ResolveGroup (onCompleteSlice add_fn) ops s2).1).cache = s2.cache ∧
      ((ResolveGroup (onCompleteSlice add_fn) ops s2).1).cacheKey = s2.cacheKey) := by
  have hoc2 : ∀ s2 i2, i2 < s2.props.length →
      ((onCompleteSlice add_fn i2 t s2).2).getProp i2 =
        ((s2.getProp i2).WasLoaded t.fieldType0).WasModified t.fieldType0 := by
    intro s2 i2 hi2
    simp only [onCompleteSlice, hok, OrchState.getProp, OrchState.setProp]
    simp
    rw [list_getD_getElem_set_self _ _ _ _ hi2]
  have hs : addSliceStep readTable add_fn dir first size false i s =
      StepRes.next ((onCompleteSlice add_fn i t s).2) [] := by
    have hoc1 : (onCompleteSlice add_fn i t s).1 = Except.ok () := by
      simp [onCompleteSlice, hok]
    rcases hoc : onCompleteSlice add_fn i t s with ⟨r, s1⟩
    rw [hoc] at hoc1
    cases r with
    | error e => exact absurd hoc1 (by simp)
    | ok u => simp [addSliceStep, habs, hload, hoc]
  have hfinal : ((runLoop (addSliceStep readTable add_fn dir first size false) (fuel + 1) i s).2.1) =
      (runLoop (addSliceStep readTable add_fn dir first size false) fuel (i + 1)
        ((onCompleteSlice add_fn i t s).2)).2.1 := by
    rcases hrl : runLoop (addSliceStep readTable add_fn dir first size false) fuel (i + 1)
        ((onCompleteSlice add_fn i t s).2) with ⟨r2, s2, ops2⟩
    simp [runLoop, hs, hrl]
  have hlt := runLoop_getProp_lt (addSliceStep readTable add_fn dir first size false)
      (fun i2 s2 j hj => addSliceStep_getProp_ne readTable add_fn dir first size false i2 j s2 hj)
      fuel (i + 1) ((onCompleteSlice add_fn i t s).2) i (by omega)
  have hmain : ((runLoop (addSliceStep readTable add_fn dir first size false) (fuel + 1) i s).2.1).getProp i =
      ((s.getProp i).WasLoaded t.fieldType0).WasModified t.fieldType0 := by
    rw [hfinal, hlt, hoc2 s i hi]
  refine ⟨hmain, by rw [hmain]; rfl, ?_, ?_, resolveSlice_frame add_fn⟩
  · intro s2 i2 hi2
    rw [hoc2 s2 i2 hi2]
    rfl
  · intro useGrp2 fuel2 i2 s2
    exact ⟨runLoop_field_const OrchState.cache _
        (fun a b => addSliceStep_cache readTable add_fn dir first size useGrp2 a b) fuel2 i2 s2,
      runLoop_field_const OrchState.cacheKey _
        (fun a b => addSliceStep_cacheKey readTable add_fn dir first size useGrp2 a b) fuel2 i2 s2⟩

theorem claim_C3_witness :
    0 < w4State.props.length ∧
    (w4State.getProp 0).IsAbsent = true ∧
    sliceFutureResult exEnv (w4State.getProp 0).name
      ("d" ++ "/" ++ (w4State.getProp 0).path) 2 5 = Except.ok exTable ∧
    exAdd exTable = Except.ok () ∧
    (((runLoop (addSliceStep exEnv exAdd "d" 2 5 false) (0 + 1) 0 w4State).2.1).getProp 0 =
       ((w4State.getProp 0).WasLoaded exTable.fieldType0).WasModified exTable.fieldType0 ∧
     ((((runLoop (addSliceStep exEnv exAdd "d" 2 5 false) (0 + 1) 0 w4State).2.1).getProp 0).state =
       PropState.Modified) ∧
     (∀ s2 i2, i2 < s2.props.length →
       (((onCompleteSlice exAdd i2 exTable s2).2).getProp i2).state = PropState.Modified) ∧
     (∀ useGrp2 fuel2 i2 s2,
       ((runLoop (addSliceStep exEnv exAdd "d" 2 5 useGrp2) fuel2 i2 s2).2.1).cache = s2.cache ∧
       ((runLoop (addSliceStep exEnv exAdd "d" 2 5 useGrp2) fuel2 i2 s2).2.1).cacheKey = s2.cacheKey) ∧
     (∀ ops s2, ((ResolveGroup (onCompleteSlice exAdd) ops s2).1).cache = s2.cache ∧
       ((ResolveGroup (onCompleteSlice exAdd) ops s2).1).cacheKey = s2.cacheKey)) :=
  ⟨by decide, by decide, by decide, rfl,
    claim_C3_slice_modified_no_cache exEnv exAdd "d" 2 5 0 0 w4State exTable
      (by decide) (by decide) (by decide) rfl⟩

/-! ### Claim C5 -/

/-- Error code of a table-load result, none on success. -/
def tableErrCode : Except Error Table → Option ErrorCode
  | Except.error e => some e.code
  | Except.ok _ => none

/-- Claim C5: when the reader returns a table whose schema does not have
exactly one field, or whose single field's name differs from the expected
property name, LoadProperties fails with InvalidArgument; the synchronous
loop then returns that error (still InvalidArgument under the added
context) with the state unchanged, so the descriptor remains Absent and the
merge function and state transitions never run; and on the grouped path,
group resolution skips the completion callback of a failed load, leaving
the state unchanged and recording the labelled error. -/
theorem claim_C5_schema_mismatch (readTable : ReadTableFn)
    (add_fn : Table → Except Error Unit) (uri : String) (fuel i : Nat)
    (s : OrchState) (out : Table)
    (habs : (s.getProp i).IsAbsent = true)
    (hc : s.cache = none)
    (hread : readTable none (uri ++ "/" ++ (s.getProp i).path) =
        ReaderOutcome.returns (Except.ok out))
    (hbad : out.fields.length ≠ 1 ∨ out.fieldName0 ≠ (s.getProp i).name) :
    (∃ e, LoadProperties readTable (s.getProp i).name (uri ++ "/" ++ (s.getProp i).path) =
        Except.error e ∧ e.code = ErrorCode.InvalidArgument) ∧
    (∃ e2, runLoop (addPropStep readTable add_fn uri false) (fuel + 1) i s =
        (Except.error e2, s, []) ∧ e2.code = ErrorCode.InvalidArgument) ∧
    (∀ (e0 : Error) (lbl : String) (rest : List PendingOp) (s2 : OrchState),
      ResolveGroup (onComplete add_fn)
          ({ idx := i, loadRes := Except.error e0, label := lbl } :: rest) s2 =
        ((ResolveGroup (onComplete add_fn) rest s2).1,
         e0.withContext lbl :: (ResolveGroup (onComplete add_fn) rest s2).2)) := by
  have hcode : tableErrCode (LoadProperties readTable (s.getProp i).name
      (uri ++ "/" ++ (s.getProp i).path)) = some ErrorCode.InvalidArgument := by
    rcases hf : out.fields with _ | ⟨f, rest0⟩
    · simp [tableErrCode, LoadProperties, DoLoadProperties, hread, hf]
    · rcases rest0 with _ | ⟨g, rest1⟩
      · have hname : ¬ (f.name = (s.getProp i).name) := by
          rcases hbad with hlen | hn
          · exact absurd (by rw [hf]; rfl) hlen
          · simpa [Table.fieldName0, hf] using hn
        simp [tableErrCode, LoadProperties, DoLoadProperties, hread, hf, hname]
      · simp [tableErrCode, LoadProperties, DoLoadProperties, hread, hf]
  rcases hlp : LoadProperties readTable (s.getProp i).name
      (uri ++ "/" ++ (s.getProp i).path) with e | t
  case ok =>
    rw [hlp] at hcode
    simp [tableErrCode] at hcode
  case error =>
    rw [hlp] at hcode
    simp only [tableErrCode, Option.some.injEq] at hcode
    have hres : fullFutureResult readTable (s.getProp i).name
        (uri ++ "/" ++ (s.getProp i).path) =
        Except.error (e.withContext ("error loading " ++ (uri ++ "/" ++ (s.getProp i).path))) := by
      simp [fullFutureResult, hlp]
    have hstep : addPropStep readTable add_fn uri false i s =
        StepRes.stop
          (Except.error (e.withContext ("error loading " ++ (uri ++ "/" ++ (s.getProp i).path))))
          s [] := by
      simp [addPropStep, habs, hc, hres]
    refine ⟨⟨e, rfl, hcode⟩,
      ⟨e.withContext ("error loading " ++ (uri ++ "/" ++ (s.getProp i).path)),
        by simp [runLoop, hstep], by simp [Error.withContext, hcode]⟩, ?_⟩
    intro e0 lbl rest s2
    rcases hrl : ResolveGroup (onComplete add_fn) rest s2 with ⟨s3, errs⟩
    simp [ResolveGroup, hrl]

/-- A single-field table whose field name does not match property col. -/
def w5Table : Table := { fields := [{ name := "other", fieldType := 9 }] }

/-- A reader that returns the mismatching table for every path. -/
def w5Env : ReadTableFn := fun _ _ => ReaderOutcome.returns (Except.ok w5Table)

theorem claim_C5_witness :
    (w4State.getProp 0).IsAbsent = true ∧
    w4State.cache = none ∧
    w5Env none ("u" ++ "/" ++ (w4State.getProp 0).path) =
      ReaderOutcome.returns (Except.ok w5Table) ∧
    (w5Table.fields.length ≠ 1 ∨ w5Table.fieldName0 ≠ (w4State.getProp 0).name) ∧
    ((∃ e, LoadProperties w5Env (w4State.getProp 0).name
        ("u" ++ "/" ++ (w4State.getProp 0).path) = Except.error e ∧
        e.code = ErrorCode.InvalidArgument) ∧
     (∃ e2, runLoop (addPropStep w5Env exAdd "u" false) (0 + 1) 0 w4State =
        (Except.error e2, w4State, []) ∧ e2.code = ErrorCode.InvalidArgument) ∧
     (∀ (e0 : Error) (lbl : String) (rest : List PendingOp) (s2 : OrchState),
       ResolveGroup (onComplete exAdd)
           ({ idx := 0, loadRes := Except.error e0, label := lbl } :: rest) s2 =
         ((ResolveGroup (onComplete exAdd) rest s2).1,
          e0.withContext lbl :: (ResolveGroup (onComplete exAdd) rest s2).2))) :=
  ⟨by decide, rfl, rfl, by right; decide,
    claim_C5_schema_mismatch w5Env exAdd "u" 0 0 w4State w5Table
      (by decide) rfl rfl (by right; decide)⟩

/-! ### Claim C7 -/

/-- Claim C7: on the synchronous path (no ReadGroup), a failing load returns
that load's error, and a failing merge returns the merge error with the
property's context, in both AddProperties and AddPropertySlice; in every
case the returned state is exactly the input state (up to the cache probe
that did not happen here, since no cache is supplied) and no further
descriptor is processed (no recursion, no registered operation). -/
theorem claim_C7_sync_first_failure_aborts (readTable : ReadTableFn)
    (add_fn : Table → Except Error Unit) (uri dir : String) (first size : Nat)
    (fuel i : Nat) (s : OrchState)
    (habs : (s.getProp i).IsAbsent = true)
    (hc : s.cache = none) :
    (∀ e, fullFutureResult readTable (s.getProp i).name
        (uri ++ "/" ++ (s.getProp i).path) = Except.error e →
      runLoop (addPropStep readTable add_fn uri false) (fuel + 1) i s =
        (Except.error e, s, [])) ∧
    (∀ t e, fullFutureResult readTable (s.getProp i).name
        (uri ++ "/" ++ (s.getProp i).path) = Except.ok t →
      add_fn t = Except.error e →
      runLoop (addPropStep readTable add_fn uri false) (fuel + 1) i s =
        (Except.error (e.withContext ("adding " ++ (s.getProp i).name)), s, [])) ∧
    (∀ e, sliceFutureResult readTable (s.getProp i).name
        (dir ++ "/" ++ (s.getProp i).path) first size = Except.error e →
      runLoop (addSliceStep readTable add_fn dir first size false) (fuel + 1) i s =
        (Except.error e, s, [])) ∧
    (∀ t e, sliceFutureResult readTable (s.getProp i).name
        (dir ++ "/" ++ (s.getProp i).path) first size = Except.ok t →
      add_fn t = Except.error e →
      runLoop (addSliceStep readTable add_fn dir first size false) (fuel + 1) i s =
        (Except.error (e.withContext ("adding " ++ (s.getProp i).name)), s, [])) := by
  refine ⟨?_, ?_, ?_, ?_⟩
  · intro e hres
    simp [runLoop, addPropStep, habs, hc, hres]
  · intro t e hres hadd
    simp [runLoop, addPropStep, habs, hc, hres, onComplete, hadd]
  · intro e hres
    simp [runLoop, addSliceStep, habs, hres]
  · intro t e hres hadd
    simp [runLoop, addSliceStep, habs, hres, onCompleteSlice, hadd]

/-- A merge function that always fails. -/
def w7Add : Table → Except Error Unit :=
  fun _ => Except.error { code := ErrorCode.Other 7, context := [] }

theorem claim_C7_witness :
    (w4State.getProp 0).IsAbsent = true ∧ w4State.cache = none ∧
    ((∀ e, fullFutureResult exEnvThrow (w4State.getProp 0).name
        ("u" ++ "/" ++ (w4State.getProp 0).path) = Except.error e →
      runLoop (addPropStep exEnvThrow w7Add "u" false) (0 + 1) 0 w4State =
        (Except.error e, w4State, [])) ∧
     (∀ t e, fullFutureResult exEnvThrow (w4State.getProp 0).name
        ("u" ++ "/" ++ (w4State.getProp 0).path) = Except.ok t →
      w7Add t = Except.error e →
      runLoop (addPropStep exEnvThrow w7Add "u" false) (0 + 1) 0 w4State =
        (Except.error (e.withContext ("adding " ++ (w4State.getProp 0).name)), w4State, [])) ∧
     (∀ e, sliceFutureResult exEnvThrow (w4State.getProp 0).name
        ("d" ++ "/" ++ (w4State.getProp 0).path) 2 5 = Except.error e →
      runLoop (addSliceStep exEnvThrow w7Add "d" 2 5 false) (0 + 1) 0 w4State =
        (Except.error e, w4State, [])) ∧
     (∀ t e, sliceFutureResult exEnvThrow (w4State.getProp 0).name
        ("d" ++ "/" ++ (w4State.getProp 0).path) 2 5 = Except.ok t →
      w7Add t = Except.error e →
      runLoop (addSliceStep exEnvThrow w7Add "d" 2 5 false) (0 + 1) 0 w4State =
        (Except.error (e.withContext ("adding " ++ (w4State.getProp 0).name)), w4State, []))) :=
  ⟨by decide, rfl,
    claim_C7_sync_first_failure_aborts exEnvThrow w7Add "u" "d" 2 5 0 0 w4State
      (by decide) rfl⟩

/-! ### Claim C9 -/

theorem onComplete_fst_ok (add_fn : Table → Except Error Unit) (i : Nat)
    (t : Table) (s : OrchState) (hok : add_fn t = Except.ok ()) :
    (onComplete add_fn i t s).1 = Except.ok () := by
  cases hc : s.cache <;> simp [onComplete, hok, hc, OrchState.setProp, OrchState.getProp]

theorem onComplete_cacheKey_some (add_fn : Table → Except Error Unit) (i : Nat)
    (t : Table) (s : OrchState) (c : PropertyCache)
    (hc : s.cache = some c) (hok : add_fn t = Except.ok ()) :
    ((onComplete add_fn i t s).2).cacheKey =
      { s.cacheKey with name := (s.getProp i).name } := by
  simp [onComplete, hok, hc, OrchState.setProp, OrchState.getProp]

theorem onComplete_cache_isSome (add_fn : Table → Except Error Unit) (i : Nat)
    (t : Table) (s : OrchState) (c : PropertyCache) (hc : s.cache = some c) :
    ∃ c2, ((onComplete add_fn i t s).2).cache = some c2 := by
  cases hadd : add_fn t with
  | error e => exact ⟨c, by simp [onComplete, hadd, hc]⟩
  | ok u =>
      refine ⟨c.Insert { s.cacheKey with name := (s.getProp i).name } t, ?_⟩
      simp [onComplete, hadd, hc, OrchState.setProp, OrchState.getProp]

/-- Claim C9: AddProperties overwrites the caller-supplied cache key object
in place. First conjunct: with a cache, a registered (grouped) iteration
already returns with the key's name overwritten by the probed property's
name, even though the load has not completed. Second conjunct: every
completion callback run with a cache overwrites the same shared key's name
again. Third conjunct: resolving a group of two successful operations after
the orchestrator has returned threads that one shared key through both
callbacks, so the key ends carrying the second operation's property name. -/
theorem claim_C9_shared_cache_key (readTable : ReadTableFn)
    (add_fn : Table → Except Error Unit) (uri : String) (i : Nat)
    (s : OrchState) (c : PropertyCache)
    (habs : (s.getProp i).IsAbsent = true)
    (hc : s.cache = some c)
    (hmiss : c.Get { s.cacheKey with name := (s.getProp i).name } = none) :
    (runLoop (addPropStep readTable add_fn uri true) 1 i s =
      (Except.ok (),
       { s with cacheKey := { s.cacheKey with name := (s.getProp i).name } },
       [{ idx := i
          loadRes := fullFutureResult readTable (s.getProp i).name
            (uri ++ "/" ++ (s.getProp i).path)
          label := uri ++ "/" ++ (s.getProp i).path }])) ∧
    (∀ i2 t2 s2 c2, s2.cache = some c2 → add_fn t2 = Except.ok () →
      ((onComplete add_fn i2 t2 s2).2).cacheKey =
        { s2.cacheKey with name := (s2.getProp i2).name }) ∧
    (∀ (op1 op2 : PendingOp) (s2 : OrchState) (c2 : PropertyCache) (t1 t2 : Table),
      s2.cache = some c2 → op1.loadRes = Except.ok t1 → op2.loadRes = Except.ok t2 →
      add_fn t1 = Except.ok () → add_fn t2 = Except.ok () →
      ((ResolveGroup (onComplete add_fn) [op1, op2] s2).1).cacheKey.name =
        (s2.getProp op2.idx).name) := by
  refine ⟨?_, ?_, ?_⟩
  · simp only [OrchState.getProp, List.getD_eq_getElem?_getD] at habs hmiss
    simp [runLoop, addPropStep, habs, hc, hmiss, OrchState.getProp]
  · intro i2 t2 s2 c2 hc2 hok2
    exact onComplete_cacheKey_some add_fn i2 t2 s2 c2 hc2 hok2
  · intro op1 op2 s2 c2 t1 t2 hc2 h1 h2 hok1 hok2
    have hfst1 := onComplete_fst_ok add_fn op1.idx t1 s2 hok1
    rcases hoc1 : onComplete add_fn op1.idx t1 s2 with ⟨r1, s3⟩
    rw [hoc1] at hfst1
    cases r1 with
    | error e => exact absurd hfst1 (by simp)
    | ok u =>
        obtain ⟨c3, hc3⟩ := onComplete_cache_isSome add_fn op1.idx t1 s2 c2 hc2
        rw [hoc1] at hc3
        have hname := onComplete_name add_fn op1.idx op2.idx t1 s2
        rw [hoc1] at hname
        have hfst2 := onComplete_fst_ok add_fn op2.idx t2 s3 hok2
        rcases hoc2 : onComplete add_fn op2.idx t2 s3 with ⟨r2, s4⟩
        rw [hoc2] at hfst2
        cases r2 with
        | error e => exact absurd hfst2 (by simp)
        | ok u2 =>
            have hkey := onComplete_cacheKey_some add_fn op2.idx t2 s3 c3 hc3 hok2
            rw [hoc2] at hkey
            simp only [ResolveGroup, h1, h2, hoc1, hoc2]
            rw [show ((Except.ok u2 : Except Error Unit), s4).2 = s4 from rfl] at hkey
            rw [show ((Except.ok u : Except Error Unit), s3).2 = s3 from rfl] at hname
            simp [hkey, hname]

/-- A cache whose single entry does not match property col. -/
def w9Cache : PropertyCache := [({ node_edge := NodeEdge.kEdge, name := "zzz" }, exTable)]

/-- A one-descriptor Absent batch whose cache misses on col. -/
def w9State : OrchState :=
  { props := [exProp], cacheKey := exKey, cache := some w9Cache, merges := [] }

theorem claim_C9_witness :
    (w9State.getProp 0).IsAbsent = true ∧
    w9State.cache = some w9Cache ∧
    w9Cache.Get { w9State.cacheKey with name := (w9State.getProp 0).name } = none ∧
    ((runLoop (addPropStep exEnv exAdd "u" true) 1 0 w9State =
      (Except.ok (),
       { w9State with cacheKey := { w9State.cacheKey with name := (w9State.getProp 0).name } },
       [{ idx := 0
          loadRes := fullFutureResult exEnv (w9State.getProp 0).name
            ("u" ++ "/" ++ (w9State.getProp 0).path)
          label := "u" ++ "/" ++ (w9State.getProp 0).path }])) ∧
     (∀ i2 t2 s2 c2, s2.cache = some c2 → exAdd t2 = Except.ok () →
       ((onComplete exAdd i2 t2 s2).2).cacheKey =
         { s2.cacheKey with name := (s2.getProp i2).name }) ∧
     (∀ (op1 op2 : PendingOp) (s2 : OrchState) (c2 : PropertyCache) (t1 t2 : Table),
       s2.cache = some c2 → op1.loadRes = Except.ok t1 → op2.loadRes = Except.ok t2 →
       exAdd t1 = Except.ok () → exAdd t2 = Except.ok () →
       ((ResolveGroup (onComplete exAdd) [op1, op2] s2).1).cacheKey.name =
         (s2.getProp op2.idx).name)) :=
  ⟨by decide, rfl, by decide,
    claim_C9_shared_cache_key exEnv exAdd "u" 0 w9State w9Cache
      (by decide) rfl (by decide)⟩

/-! ### Claim C1: registration lemmas and the equivalence induction -/

theorem runLoop_state_id (step : Nat → OrchState → StepRes)
    (hstep : ∀ i s, (step i s).state = s) :
    ∀ fuel i s, (runLoop step fuel i s).2.1 = s := by
  intro fuel
  induction fuel with
  | zero => intro i s; simp [runLoop]
  | succ k ih =>
      intro i s
      have h0 := hstep i s
      cases hs : step i s with
      | stop r s1 ops =>
          rw [hs] at h0
          simp only [StepRes.state] at h0
          simp [runLoop, hs, h0]
      | next s1 ops =>
          rw [hs] at h0
          simp only [StepRes.state] at h0
          rcases hrl : runLoop step k (i + 1) s1 with ⟨r2, s2, ops2⟩
          have h2 := ih (i + 1) s1
          rw [hrl] at h2
          simp [runLoop, hs, hrl]
          exact h2.trans h0

theorem addSliceStep_grp_state (readTable : ReadTableFn) (add_fn : Table → Except Error Unit)
    (dir : String) (first size : Nat) (i : Nat) (s : OrchState) :
    (addSliceStep readTable add_fn dir first size true i s).state = s := by
  by_cases h : (s.getProp i).IsAbsent = false <;>
    simp [addSliceStep, h, StepRes.state]

theorem addPropStep_grp_state (readTable : ReadTableFn) (add_fn : Table → Except Error Unit)
    (uri : String) (i : Nat) (s : OrchState) (hc : s.cache = none) :
    (addPropStep readTable add_fn uri true i s).state = s := by
  by_cases h : (s.getProp i).IsAbsent = false <;>
    simp [addPropStep, h, hc, StepRes.state]

theorem runLoopGrpFull_state (readTable : ReadTableFn) (add_fn : Table → Except Error Unit)
    (uri : String) :
    ∀ fuel i s, s.cache = none →
      (runLoop (addPropStep readTable add_fn uri true) fuel i s).2.1 = s := by
  intro fuel
  induction fuel with
  | zero => intro i s _; simp [runLoop]
  | succ k ih =>
      intro i s hc
      have h0 := addPropStep_grp_state readTable add_fn uri i s hc
      cases hs : addPropStep readTable add_fn uri true i s with
      | stop r s1 ops =>
          rw [hs] at h0
          simp only [StepRes.state] at h0
          simp [runLoop, hs, h0]
      | next s1 ops =>
          rw [hs] at h0
          simp only [StepRes.state] at h0
          have hc1 : s1.cache = none := by rw [h0]; exact hc
          rcases hrl : runLoop (addPropStep readTable add_fn uri true) k (i + 1) s1 with ⟨r2, s2, ops2⟩
          have h2 := ih (i + 1) s1 hc1
          rw [hrl] at h2
          simp [runLoop, hs, hrl]
          exact h2.trans h0

theorem runLoopGrpFull_congr (readTable : ReadTableFn) (add_fn : Table → Except Error Unit)
    (uri : String) :
    ∀ fuel i s s1, s.cache = none → s1.cache = none →
      (∀ j, i ≤ j → s.getProp j = s1.getProp j) →
      (runLoop (addPropStep readTable add_fn uri true) fuel i s).1 =
        (runLoop (addPropStep readTable add_fn uri true) fuel i s1).1 ∧
      (runLoop (addPropStep readTable add_fn uri true) fuel i s).2.2 =
        (runLoop (addPropStep readTable add_fn uri true) fuel i s1).2.2 := by
  intro fuel
  induction fuel with
  | zero => intro i s s1 _ _ _; simp [runLoop]
  | succ k ih =>
      intro i s s1 hc hc1 hag
      have hgi : s.getProp i = s1.getProp i := hag i (Nat.le_refl i)
      by_cases h : (s.getProp i).IsAbsent = false
      · have h1 : (s1.getProp i).IsAbsent = false := by rw [← hgi]; exact h
        simp [runLoop, addPropStep, h, h1, hgi]
      · have h1 : ¬ ((s1.getProp i).IsAbsent = false) := by rw [← hgi]; exact h
        have hstep : addPropStep readTable add_fn uri true i s =
            StepRes.next s
              [{ idx := i,
                 loadRes := fullFutureResult readTable (s.getProp i).name
                   (uri ++ "/" ++ (s.getProp i).path),
                 label := uri ++ "/" ++ (s.getProp i).path }] := by
          simp [addPropStep, h, hc]
        have hstep1 : addPropStep readTable add_fn uri true i s1 =
            StepRes.next s1
              [{ idx := i,
                 loadRes := fullFutureResult readTable (s.getProp i).name
                   (uri ++ "/" ++ (s.getProp i).path),
                 label := uri ++ "/" ++ (s.getProp i).path }] := by
          have habs2 : (s.getProp i).IsAbsent = true := by simpa using h
          simp [addPropStep, habs2, hc1, ← hgi]
        rcases hrlS : runLoop (addPropStep readTable add_fn uri true) k (i + 1) s with ⟨rS, sS, opsS⟩
        rcases hrlT : runLoop (addPropStep readTable add_fn uri true) k (i + 1) s1 with ⟨rT, sT, opsT⟩
        have hih := ih (i + 1) s s1 hc hc1 (fun j hj => hag j (by omega))
        rw [hrlS, hrlT] at hih
        simp only [runLoop, hstep, hstep1, hrlS, hrlT]
        exact ⟨hih.1, by rw [show opsS = opsT from hih.2]⟩

theorem runLoopGrpSlice_congr (readTable : ReadTableFn) (add_fn : Table → Except Error Unit)
    (dir : String) (first size : Nat) :
    ∀ fuel i s s1,
      (∀ j, i ≤ j → s.getProp j = s1.getProp j) →
      (runLoop (addSliceStep readTable add_fn dir first size true) fuel i s).1 =
        (runLoop (addSliceStep readTable add_fn dir first size true) fuel i s1).1 ∧
      (runLoop (addSliceStep readTable add_fn dir first size true) fuel i s).2.2 =
        (runLoop (addSliceStep readTable add_fn dir first size true) fuel i s1).2.2 := by
  intro fuel
  induction fuel with
  | zero => intro i s s1 _; simp [runLoop]
  | succ k ih =>
      intro i s s1 hag
      have hgi : s.getProp i = s1.getProp i := hag i (Nat.le_refl i)
      by_cases h : (s.getProp i).IsAbsent = false
      · have h1 : (s1.getProp i).IsAbsent = false := by rw [← hgi]; exact h
        simp [runLoop, addSliceStep, h, h1, hgi]
      · have h1 : ¬ ((s1.getProp i).IsAbsent = false) := by rw [← hgi]; exact h
        have hstep : addSliceStep readTable add_fn dir first size true i s =
            StepRes.next s
              [{ idx := i,
                 loadRes := sliceFutureResult readTable (s.getProp i).name
                   (dir ++ "/" ++ (s.getProp i).path) first size,
                 label := dir ++ "/" ++ (s.getProp i).path }] := by
          simp [addSliceStep, h]
        have hstep1 : addSliceStep readTable add_fn dir first size true i s1 =
            StepRes.next s1
              [{ idx := i,
                 loadRes := sliceFutureResult readTable (s.getProp i).name
                   (dir ++ "/" ++ (s.getProp i).path) first size,
                 label := dir ++ "/" ++ (s.getProp i).path }] := by
          have habs2 : (s.getProp i).IsAbsent = true := by simpa using h
          simp [addSliceStep, habs2, ← hgi]
        rcases hrlS : runLoop (addSliceStep readTable add_fn dir first size true) k (i + 1) s with ⟨rS, sS, opsS⟩
        rcases hrlT : runLoop (addSliceStep readTable add_fn dir first size true) k (i + 1) s1 with ⟨rT, sT, opsT⟩
        have hih := ih (i + 1) s s1 (fun j hj => hag j (by omega))
        rw [hrlS, hrlT] at hih
        simp only [runLoop, hstep, hstep1, hrlS, hrlT]
        exact ⟨hih.1, by rw [show opsS = opsT from hih.2]⟩

theorem syncGrpEquivFull (readTable : ReadTableFn) (add_fn : Table → Except Error Unit)
    (uri : String) :
    ∀ fuel i s, s.cache = none →
      (runLoop (addPropStep readTable add_fn uri false) fuel i s).1 = Except.ok () →
      (runLoop (addPropStep readTable add_fn uri true) fuel i s).1 = Except.ok () ∧
      (runLoop (addPropStep readTable add_fn uri true) fuel i s).2.1 = s ∧
      ResolveGroup (onComplete add_fn)
          ((runLoop (addPropStep readTable add_fn uri true) fuel i s).2.2) s =
        ((runLoop (addPropStep readTable add_fn uri false) fuel i s).2.1, []) := by
  intro fuel
  induction fuel with
  | zero => intro i s _ _; simp [runLoop, ResolveGroup]
  | succ k ih =>
      intro i s hc hok
      by_cases habs : (s.getProp i).IsAbsent = false
      · exfalso
        simp [runLoop, addPropStep, habs] at hok
      · rcases hres : fullFutureResult readTable (s.getProp i).name
            (uri ++ "/" ++ (s.getProp i).path) with e | t
        · exfalso
          simp [runLoop, addPropStep, habs, hc, hres] at hok
        · rcases hoc : onComplete add_fn i t s with ⟨rc, s1⟩
          cases rc with
          | error e =>
              exfalso
              simp [runLoop, addPropStep, habs, hc, hres, hoc] at hok
          | ok u =>
              have hsyncStep : addPropStep readTable add_fn uri false i s =
                  StepRes.next s1 [] := by
                simp [addPropStep, habs, hc, hres, hoc]
              have hsync : runLoop (addPropStep readTable add_fn uri false) (k + 1) i s =
                  runLoop (addPropStep readTable add_fn uri false) k (i + 1) s1 := by
                rcases hrl : runLoop (addPropStep readTable add_fn uri false) k (i + 1) s1 with ⟨r2, s2, ops2⟩
                simp [runLoop, hsyncStep, hrl]
              rw [hsync] at hok
              have hs1c : s1.cache = none := by
                have hcn := onComplete_cache_none add_fn i t s hc
                rw [hoc] at hcn
                exact hcn
              have hih := ih (i + 1) s1 hs1c hok
              have hag : ∀ j, i + 1 ≤ j → s1.getProp j = s.getProp j := by
                intro j hj
                have hgp := onComplete_getProp_ne add_fn i j t s (by omega)
                rw [hoc] at hgp
                exact hgp
              have hcongr := runLoopGrpFull_congr readTable add_fn uri k (i + 1) s1 s hs1c hc hag
              have hgrpStep : addPropStep readTable add_fn uri true i s =
                  StepRes.next s
                    [{ idx := i, loadRes := Except.ok t,
                       label := uri ++ "/" ++ (s.getProp i).path }] := by
                simp [addPropStep, habs, hc, hres]
              rcases hrlG : runLoop (addPropStep readTable add_fn uri true) k (i + 1) s with ⟨rG, sG, opsG⟩
              rcases hrlH : runLoop (addPropStep readTable add_fn uri true) k (i + 1) s1 with ⟨rH, sH, opsH⟩
              rw [hrlG, hrlH] at hcongr
              rw [hrlH] at hih
              have hgrpRun : runLoop (addPropStep readTable add_fn uri true) (k + 1) i s =
                  (rG, sG,
                   { idx := i, loadRes := Except.ok t,
                     label := uri ++ "/" ++ (s.getProp i).path } :: opsG) := by
                simp [runLoop, hgrpStep, hrlG]
              refine ⟨?_, ?_, ?_⟩
              · rw [hgrpRun]
                exact (hcongr.1).symm.trans hih.1
              · exact runLoopGrpFull_state readTable add_fn uri (k + 1) i s hc
              · rw [hgrpRun, hsync]
                simp only [ResolveGroup, hoc]
                rw [← (show opsH = opsG from hcongr.2)]
                exact hih.2.2

theorem syncGrpEquivSlice (readTable : ReadTableFn) (add_fn : Table → Except Error Unit)
    (dir : String) (first size : Nat) :
    ∀ fuel i s,
      (runLoop (addSliceStep readTable add_fn dir first size false) fuel i s).1 = Except.ok () →
      (runLoop (addSliceStep readTable add_fn dir first size true) fuel i s).1 = Except.ok () ∧
      (runLoop (addSliceStep readTable add_fn dir first size true) fuel i s).2.1 = s ∧
      ResolveGroup (onCompleteSlice add_fn)
          ((runLoop (addSliceStep readTable add_fn dir first size true) fuel i s).2.2) s =
        ((runLoop (addSliceStep readTable add_fn dir first size false) fuel i s).2.1, []) := by
  intro fuel
  induction fuel with
  | zero => intro i s _; simp [runLoop, ResolveGroup]
  | succ k ih =>
      intro i s hok
      by_cases habs : (s.getProp i).IsAbsent = false
      · exfalso
        simp [runLoop, addSliceStep, habs] at hok
      · rcases hres : sliceFutureResult readTable (s.getProp i).name
            (dir ++ "/" ++ (s.getProp i).path) first size with e | t
        · exfalso
          simp [runLoop, addSliceStep, habs, hres] at hok
        · rcases hoc : onCompleteSlice add_fn i t s with ⟨rc, s1⟩
          cases rc with
          | error e =>
              exfalso
              simp [runLoop, addSliceStep, habs, hres, hoc] at hok
          | ok u =>
              have hsyncStep : addSliceStep readTable add_fn dir first size false i s =
                  StepRes.next s1 [] := by
                simp [addSliceStep, habs, hres, hoc]
              have hsync : runLoop (addSliceStep readTable add_fn dir first size false) (k + 1) i s =
                  runLoop (addSliceStep readTable add_fn dir first size false) k (i + 1) s1 := by
                rcases hrl : runLoop (addSliceStep readTable add_fn dir first size false) k (i + 1) s1 with ⟨r2, s2, ops2⟩
                simp [runLoop, hsyncStep, hrl]
              rw [hsync] at hok
              have hih := ih (i + 1) s1 hok
              have hag : ∀ j, i + 1 ≤ j → s1.getProp j = s.getProp j := by
                intro j hj
                have hgp := onCompleteSlice_getProp_ne add_fn i j t s (by omega)
                rw [hoc] at hgp
                exact hgp
              have hcongr := runLoopGrpSlice_congr readTable add_fn dir first size k (i + 1) s1 s hag
              have hgrpStep : addSliceStep readTable add_fn dir first size true i s =
                  StepRes.next s
                    [{ idx := i, loadRes := Except.ok t,
                       label := dir ++ "/" ++ (s.getProp i).path }] := by
                simp [addSliceStep, habs, hres]
              rcases hrlG : runLoop (addSliceStep readTable add_fn dir first size true) k (i + 1) s with ⟨rG, sG, opsG⟩
              rcases hrlH : runLoop (addSliceStep readTable add_fn dir first size true) k (i + 1) s1 with ⟨rH, sH, opsH⟩
              rw [hrlG, hrlH] at hcongr
              rw [hrlH] at hih
              have hgrpRun : runLoop (addSliceStep readTable add_fn dir first size true) (k + 1) i s =
                  (rG, sG,
                   { idx := i, loadRes := Except.ok t,
                     label := dir ++ "/" ++ (s.getProp i).path } :: opsG) := by
                simp [runLoop, hgrpStep, hrlG]
              refine ⟨?_, ?_, ?_⟩
              · rw [hgrpRun]
                exact (hcongr.1).symm.trans hih.1
              · exact runLoop_state_id (addSliceStep readTable add_fn dir first size true)
                  (addSliceStep_grp_state readTable add_fn dir first size) (k + 1) i s
              · rw [hgrpRun, hsync]
                simp only [ResolveGroup, hoc]
                rw [← (show opsH = opsG from hcongr.2)]
                exact hih.2.2

/-! ### Claim C1 -/

/-- Descriptor a, stored at relative path pa, Absent. -/
def cxProp0 : PropStorageInfo :=
  { name := "a", path := "pa", state := PropState.Absent, dataType := none }

/-- Descriptor b, stored at relative path pb, Absent. -/
def cxProp1 : PropStorageInfo :=
  { name := "b", path := "pb", state := PropState.Absent, dataType := none }

/-- A single-field table named b. -/
def cxTableB : Table := { fields := [{ name := "b", fieldType := 3 }] }

/-- A reader for which only path u/pb loads; every other path fails. -/
def cxEnv : ReadTableFn := fun _ path =>
  if path = "u/pb" then ReaderOutcome.returns (Except.ok cxTableB)
  else ReaderOutcome.returns (Except.error { code := ErrorCode.Other 0, context := [] })

/-- A two-descriptor batch with no cache. -/
def cxState : OrchState :=
  { props := [cxProp0, cxProp1], cacheKey := exKey, cache := none, merges := [] }

theorem claim_C1_counterexample :
    ((ResolveGroup (onComplete exAdd) (AddProperties cxEnv exAdd "u" true cxState).2.2
        (AddProperties cxEnv exAdd "u" true cxState).2.1).1).props ≠
      ((AddProperties cxEnv exAdd "u" false cxState).2.1).props := by
  decide

/-- Claim C1 (amended): the original claim fails when a load in the batch
fails, because the synchronous path aborts the remaining descriptors while
the grouped path registers and resolves all of them. Amended: provided the
synchronous run returns success (no descriptor fails) and, for
AddProperties, no cache is supplied, the grouped run also returns success
leaving the state untouched, and resolving the group afterwards records no
errors and yields exactly the synchronous run's final state — descriptor
states, cache contents, and merged data alike; only scheduling differs.
AddPropertySlice needs no cache proviso since it never consults one. -/
theorem claim_C1_amended_sync_grouped_equiv (readTable : ReadTableFn)
    (add_fn : Table → Except Error Unit) (uri dir : String) (range : Nat × Nat)
    (s : OrchState) :
    (s.cache = none →
      (AddProperties readTable add_fn uri false s).1 = Except.ok () →
      (AddProperties readTable add_fn uri true s).1 = Except.ok () ∧
      (AddProperties readTable add_fn uri true s).2.1 = s ∧
      ResolveGroup (onComplete add_fn) ((AddProperties readTable add_fn uri true s).2.2) s =
        ((AddProperties readTable add_fn uri false s).2.1, [])) ∧
    ((AddPropertySlice readTable add_fn dir range false s).1 = Except.ok () →
      (AddPropertySlice readTable add_fn dir range true s).1 = Except.ok () ∧
      (AddPropertySlice readTable add_fn dir range true s).2.1 = s ∧
      ResolveGroup (onCompleteSlice add_fn)
          ((AddPropertySlice readTable add_fn dir range true s).2.2) s =
        ((AddPropertySlice readTable add_fn dir range false s).2.1, [])) := by
  constructor
  · intro hc hok
    exact syncGrpEquivFull readTable add_fn uri s.props.length 0 s hc hok
  · intro hok
    exact syncGrpEquivSlice readTable add_fn dir (range.1 % UINT64_MOD)
      (usub64 range.2 range.1) s.props.length 0 s hok

/-- A single-field table named a. -/
def w1TableA : Table := { fields := [{ name := "a", fieldType := 1 }] }

/-- A reader for which both u/pa and u/pb load their matching tables. -/
def w1Env : ReadTableFn := fun _ path =>
  if path = "u/pa" then ReaderOutcome.returns (Except.ok w1TableA)
  else ReaderOutcome.returns (Except.ok cxTableB)

theorem claim_C1_amended_witness :
    cxState.cache = none ∧
    (AddProperties w1Env exAdd "u" false cxState).1 = Except.ok () ∧
    (AddPropertySlice w1Env exAdd "u" (3, 9) false cxState).1 = Except.ok () ∧
    ((AddProperties w1Env exAdd "u" true cxState).1 = Except.ok () ∧
     (AddProperties w1Env exAdd "u" true cxState).2.1 = cxState ∧
     ResolveGroup (onComplete exAdd) ((AddProperties w1Env exAdd "u" true cxState).2.2) cxState =
       ((AddProperties w1Env exAdd "u" false cxState).2.1, [])) ∧
    ((AddPropertySlice w1Env exAdd "u" (3, 9) true cxState).1 = Except.ok () ∧
     (AddPropertySlice w1Env exAdd "u" (3, 9) true cxState).2.1 = cxState ∧
     ResolveGroup (onCompleteSlice exAdd)
         ((AddPropertySlice w1Env exAdd "u" (3, 9) true cxState).2.2) cxState =
       ((AddPropertySlice w1Env exAdd "u" (3, 9) false cxState).2.1, [])) :=
  ⟨rfl, by decide, by decide,
    (claim_C1_amended_sync_grouped_equiv w1Env exAdd "u" "u" (3, 9) cxState).1 rfl (by decide),
    (claim_C1_amended_sync_grouped_equiv w1Env exAdd "u" "u" (3, 9) cxState).2 (by decide)⟩
